import Mathlib

/-!
Verification of the LLST core against its specification.

The development shallowly embeds the parts of the LLST sources that the
checked properties talk about:

* the tagged small-integer encoding from `include/vm.h`,
* the bytecode lowering routines of `MethodCompiler.cpp`
  (`doPushConstant`, `doPushLiteral`, `doSendBinary`, `doAssignInstance`),
* the generational collector (`GenerationalMemoryManager`): the write
  barrier `checkRoot` with its crossgen reference list, and the
  collection drivers `collectGarbage`, `collectLeftToRight`,
  `collectRightToLeft`, `checkThreshold`.

Machine integers are `Nat` with explicit reduction modulo `2 ^ 32` where
the C code truncates.  Pointers are plain numeric addresses.  Code of the
base collector (`BakerMemoryManager`) is not part of the sources; where a
definition depends on it, the definition is modelled from the
specification and says so in its doc comment.
-/

/-- From `include/vm.h`: `getIntegerValue(value) = (uint32_t) value >> 1`.
The cast to `uint32_t` is the reduction modulo `2 ^ 32`. -/
def getIntegerValue (value : Nat) : Nat := (value % 4294967296) >>> 1

/-- From `include/vm.h`: `newInteger(value) = (value << 1) | 1`, truncated
to the 32-bit result type. -/
def newInteger (value : Nat) : Nat := ((value <<< 1) ||| 1) % 4294967296

/-- Modelled from the spec: `isSmallInteger(p) = (p & 1) == 1` (the
definition lives in `types.h`, which is not among the sources; §4.1 of the
specification states it). -/
def isSmallInteger (p : Nat) : Bool := (p &&& 1) == 1

/-- Interpretation of a 32-bit word as a signed integer, as LLVM's signed
comparison instructions do. -/
def toInt32 (w : Nat) : Int :=
  if w % 4294967296 < 2147483648 then ((w % 4294967296 : Nat) : Int)
  else ((w % 4294967296 : Nat) : Int) - 4294967296

/-- LLVM `icmp slt` on 32-bit words, used by `doSendBinary`. -/
def icmpSLT (a b : Nat) : Bool := decide (toInt32 a < toInt32 b)

/-- LLVM `icmp sle` on 32-bit words, used by `doSendBinary`. -/
def icmpSLE (a b : Nat) : Bool := decide (toInt32 a ≤ toInt32 b)

/-- A value as handled by the compiled code: either a raw 32-bit word
(tagged small integers and the null produced on a bad constant), one of
the distinguished global objects `nil`, `true`, `false`, or some other
heap object.  Heap objects are word aligned in the sources, so none of
them carries a set low bit. -/
inductive TObjectRef where
  | raw (w : Nat)
  | nilObject
  | trueObject
  | falseObject
  | heapObj (id : Nat)
deriving DecidableEq, Repr

/-- The runtime `isSmallInteger()` test performed on an operand: only raw
words with the low bit set pass it. -/
def TObjectRef.isSmallInt : TObjectRef → Bool
  | TObjectRef.raw w => isSmallInteger w
  | _ => false

/-- The runtime `getIntegerValue()` call performed on an operand that
passed the small-integer test. -/
def TObjectRef.intValue : TObjectRef → Nat
  | TObjectRef.raw w => getIntegerValue w
  | _ => 0

/-- LLVM `select` between the global `true` and `false` objects, as
emitted by `doSendUnary` and `doSendBinary`. -/
def boolSelect (b : Bool) : TObjectRef :=
  if b then TObjectRef.trueObject else TObjectRef.falseObject

/-- From `MethodCompiler.cpp`, `doPushConstant`: constants `0`..`9` are
pushed as the immediate `newInteger(constant)`; `10`, `11`, `12` push the
global `nil`, `true` and `false` objects; any other constant leaves the
null value to be pushed after the error report. -/
def doPushConstant (constant : Nat) (stack : List TObjectRef) : List TObjectRef :=
  let constantValue :=
    if constant ≤ 9 then TObjectRef.raw (newInteger constant)
    else if constant = 10 then TObjectRef.nilObject
    else if constant = 11 then TObjectRef.trueObject
    else if constant = 12 then TObjectRef.falseObject
    else TObjectRef.raw 0
  constantValue :: stack

/-- From `MethodCompiler.cpp`, `doPushLiteral`: the literal at `index` in
the method's literal array is read at compile time; a small-integer
literal is inlined as an immediate constant, any other literal is loaded
from the literal array.  The literal array is a list of 32-bit words;
`none` models the out-of-range access. -/
def doPushLiteral (literals : List Nat) (index : Nat) : Option Nat :=
  match literals.get? index with
  | none => none
  | some literalObject =>
      if isSmallInteger literalObject then some literalObject
      else literals.get? index

/-- The general lowering of `pushLiteral` (the earlier revision of
`MethodCompiler.cpp` among the unnamed sources): always load element
`index` of the literal array. -/
def doPushLiteralGeneral (literals : List Nat) (index : Nat) : Option Nat :=
  literals.get? index

/-- Outcome of `doSendBinary`: either a directly computed value is pushed,
or a two-element argument array is built and the binary selector with the
given index is sent. -/
inductive TBinarySendOutcome where
  | direct (v : TObjectRef)
  | send (selectorIndex : Nat) (args : List TObjectRef)
deriving DecidableEq, Repr

/-- From `MethodCompiler.cpp`, `doSendBinary`: pop the right operand, then
the left one.  If both are small integers the operation is computed
directly: `<` and `<=` produce a boolean object via signed 32-bit
comparison, `+` adds the two untagged 32-bit values (a wrapping `add`)
and re-tags the result with `newInteger()`.  Otherwise an argument array
holding `left, right` is built and the binary selector `low` is sent.
Opcodes other than 0, 1, 2 produce broken code (reported as an invalid
opcode); they and stack underflow are modelled as `none`. -/
def doSendBinary (low : Nat) (stack : List TObjectRef) :
    Option (TBinarySendOutcome × List TObjectRef) :=
  match stack with
  | rightValue :: leftValue :: rest =>
      if low < 3 then
        if rightValue.isSmallInt && leftValue.isSmallInt then
          let rightInt := rightValue.intValue
          let leftInt := leftValue.intValue
          let intResultObject :=
            if low = 0 then boolSelect (icmpSLT leftInt rightInt)
            else if low = 1 then boolSelect (icmpSLE leftInt rightInt)
            else TObjectRef.raw (newInteger ((leftInt + rightInt) % 4294967296))
          some (TBinarySendOutcome.direct intResultObject, rest)
        else
          some (TBinarySendOutcome.send low [leftValue, rightValue], rest)
      else none
  | _ => none

/-- The `SmalltalkVM::TExecuteResult` enumeration of the sources. -/
inductive TExecuteResult where
  | returnError
  | returnBadMethod
  | returnReturned
  | returnTimeExpired
  | returnBreak
  | returnNoReturn
deriving DecidableEq, Repr

/-- The numeric values the source enumeration assigns: `returnError = 2`,
the following enumerators count up from it, and `returnNoReturn = 255`. -/
def TExecuteResult.code : TExecuteResult → Nat
  | TExecuteResult.returnError => 2
  | TExecuteResult.returnBadMethod => 3
  | TExecuteResult.returnReturned => 4
  | TExecuteResult.returnTimeExpired => 5
  | TExecuteResult.returnBreak => 6
  | TExecuteResult.returnNoReturn => 255

/-- State seen by the write barrier of `GenerationalMemoryManager`.
Addresses are numeric.  `heapOne`, `heapSize` and `activeHeapPointer`
give the geometry the range test `isInYoungHeap` uses; `mem` is the word
stored at each slot address; `crossgen` is `m_crossGenerationalReferences`
(a `std::list` used with `push_front` and first-occurrence erase).
`staticHeap` and `baseCheckRoot` stand for `BakerMemoryManager`'s
`isInStaticHeap` test and `checkRoot` handling, whose code is not among
the sources; they are modelled from the spec as opaque-to-us predicates
that never touch the crossgen list. -/
structure WBState where
  heapOne : Nat
  heapSize : Nat
  activeHeapPointer : Nat
  staticHeap : Nat → Bool
  baseCheckRoot : Nat → Nat → Bool
  mem : Nat → Nat
  crossgen : List Nat

/-- From `GenerationalMemoryManager::isInYoungHeap`:
`location >= m_activeHeapPointer && location < m_heapOne + m_heapSize/2`
(allocation moves the pointer downwards, so the allocated part of the
young half is exactly this interval). -/
def isInYoungHeap (s : WBState) (location : Nat) : Bool :=
  decide (s.activeHeapPointer ≤ location) && decide (location < s.heapOne + s.heapSize / 2)

/-- `BakerMemoryManager::isInStaticHeap`, modelled from the spec as the
abstract membership predicate carried by the state. -/
def isInStaticHeap (s : WBState) (location : Nat) : Bool := s.staticHeap location

/-- From `GenerationalMemoryManager::addCrossgenReference`: a
`push_front` on the crossgen list. -/
def addCrossgenReference (s : WBState) (pointer : Nat) : WBState :=
  { s with crossgen := pointer :: s.crossgen }

/-- From `GenerationalMemoryManager::removeCrossgenReference`: erase the
first occurrence of `pointer`, if any. -/
def removeCrossgenReference (s : WBState) (pointer : Nat) : WBState :=
  { s with crossgen := s.crossgen.erase pointer }

/-- From `GenerationalMemoryManager::checkRoot`.  Returns the C function's
boolean result together with the updated state. -/
def checkRoot (s : WBState) (value : Nat) (objectSlot : Nat) : Bool × WBState :=
  let slotIsYoung := isInYoungHeap s objectSlot
  if !slotIsYoung then
    if isInStaticHeap s objectSlot then (s.baseCheckRoot value objectSlot, s)
    else
      let previousValue := s.mem objectSlot
      let valueIsYoung := isInYoungHeap s value
      let previousValueIsYoung := isInYoungHeap s previousValue
      if valueIsYoung then
        if !previousValueIsYoung then (true, addCrossgenReference s objectSlot)
        else (false, s)
      else
        if previousValueIsYoung then (true, removeCrossgenReference s objectSlot)
        else (false, s)
  else (false, s)

/-- A reference-slot store: the word `value` is written to `slot`. -/
def storeSlot (s : WBState) (value slot : Nat) : WBState :=
  { s with mem := fun a => if a = slot then value else s.mem a }

/-- The order `MethodCompiler::doAssignInstance` emits and the spec
describes: first the store, then the `checkRoot` call. -/
def storeThenCheckRoot (s : WBState) (value slot : Nat) : Bool × WBState :=
  checkRoot (storeSlot s value slot) value slot

/-- The barrier discipline with the `checkRoot` call made immediately
before the store, while the slot still holds its prior value. -/
def checkRootThenStore (s : WBState) (value slot : Nat) : WBState :=
  storeSlot (checkRoot s value slot).2 value slot

/-- The crossgen invariant over a finite domain `dom` of tracked slot
addresses: the crossgen list holds exactly one copy of every tracked
old-generation slot whose current content is young, and nothing else. -/
def crossgenInv (dom : List Nat) (s : WBState) : Prop :=
  ∀ a : Nat,
    s.crossgen.count a =
      if a ∈ dom ∧ isInYoungHeap s a = false ∧ isInYoungHeap s (s.mem a) = true
      then 1 else 0

/-- A concrete barrier state: young half is the interval `[100, 500)`,
slot `600` lies in the old generation and holds the old-generation
address `700`, the static heap is empty and so is the crossgen list. -/
def exBarrier : WBState where
  heapOne := 0
  heapSize := 1000
  activeHeapPointer := 100
  staticHeap := fun _ => false
  baseCheckRoot := fun _ _ => false
  mem := fun a => if a = 600 then 700 else 999
  crossgen := []

/-- The same state after slot `600` has been overwritten with the young
address `200` without any barrier bookkeeping. -/
def exBarrierYoungSlot : WBState :=
  { exBarrier with mem := fun a => if a = 600 then 200 else 999 }

/-- State of the generational collector as `GenerationalMemoryManager`
manipulates it.  `heapOne` and `heapTwo` are the base addresses of the
two halves, each of size `heapSize / 2`; allocation decrements the active
pointer from the top of the active half.  Live objects are tracked per
half as `(id, size)` pairs; `poisonOne` and `poisonTwo` record the byte a
half was last overwritten with by `memset`.  The counters are the
telemetry fields of the class. -/
structure GenState where
  heapOne : Nat
  heapTwo : Nat
  heapSize : Nat
  activeHeapBase : Nat
  activeHeapPointer : Nat
  inactiveHeapBase : Nat
  inactiveHeapPointer : Nat
  liveInOne : List (Nat × Nat)
  liveInTwo : List (Nat × Nat)
  poisonOne : Option Nat
  poisonTwo : Option Nat
  crossgen : List Nat
  leftToRightCollections : Nat
  rightToLeftCollections : Nat
  collectionsCount : Nat
deriving DecidableEq, Repr

/-- Total byte size of a list of live objects. -/
def totalSize (objs : List (Nat × Nat)) : Nat := (objs.map Prod.snd).sum

/-- Modelled from the spec (§4.3): `BakerMemoryManager::moveObjects`, the
full Cheney pass, whose code is not among the sources.  Every live object
ends up in the active half, consuming space there; the other half is left
without live objects. -/
def moveObjects (s : GenState) : GenState :=
  if s.activeHeapBase = s.heapTwo then
    { s with liveInTwo := s.liveInTwo ++ s.liveInOne
             liveInOne := []
             activeHeapPointer := s.activeHeapPointer - totalSize s.liveInOne }
  else
    { s with liveInOne := s.liveInOne ++ s.liveInTwo
             liveInTwo := []
             activeHeapPointer := s.activeHeapPointer - totalSize s.liveInTwo }

/-- From `GenerationalMemoryManager::moveYoungObjects`, which is always
invoked while the second half is the active one: the surviving young
objects (reached from the crossgen list, the external pointers and the
static roots) are moved into the second half, and the crossgen list is
cleared.  The individual `moveObject` calls are the base collector's and
are modelled from the spec as promoting every live young object. -/
def moveYoungObjects (s : GenState) : GenState :=
  { s with liveInTwo := s.liveInTwo ++ s.liveInOne
           liveInOne := []
           activeHeapPointer := s.activeHeapPointer - totalSize s.liveInOne
           crossgen := [] }

/-- From `GenerationalMemoryManager::collectLeftToRight(fullCollect)`:
temporarily make the second half the active one (swapping the two heap
pointers), run `moveObjects` (full collect) or `moveYoungObjects`, then
declare the second half inactive at its new allocation pointer, reset the
first half to empty, poison it with `0xAA` and count the collection. -/
def collectLeftToRight (s : GenState) (fullCollect : Bool) : GenState :=
  let s1 := { s with activeHeapBase := s.heapTwo
                     inactiveHeapBase := s.heapOne
                     activeHeapPointer := s.inactiveHeapPointer
                     inactiveHeapPointer := s.activeHeapPointer }
  let s2 := if fullCollect then moveObjects s1 else moveYoungObjects s1
  { s2 with inactiveHeapBase := s.heapTwo
            inactiveHeapPointer := s2.activeHeapPointer
            activeHeapBase := s.heapOne
            activeHeapPointer := s.heapOne + s.heapSize / 2
            poisonOne := some 170
            leftToRightCollections := s2.leftToRightCollections + 1 }

/-- From `GenerationalMemoryManager::collectRightToLeft`: make the first
half active and empty, move every live object into it, reset and poison
the second half with `0xBB`, move everything back with a full
`collectLeftToRight(true)` and count the collection. -/
def collectRightToLeft (s : GenState) : GenState :=
  let s1 := { s with activeHeapBase := s.heapOne
                     inactiveHeapBase := s.heapTwo
                     activeHeapPointer := s.heapOne + s.heapSize / 2 }
  let s2 := moveObjects s1
  let s3 := { s2 with inactiveHeapPointer := s.heapTwo + s.heapSize / 2
                      poisonTwo := some 187 }
  let s4 := collectLeftToRight s3 true
  { s4 with rightToLeftCollections := s4.rightToLeftCollections + 1 }

/-- From `GenerationalMemoryManager::checkThreshold`: the remaining free
space of the inactive (old) half, `m_inactiveHeapPointer -
m_inactiveHeapBase`, is compared against `m_heapSize / 8`. -/
def checkThreshold (s : GenState) : Bool :=
  decide (s.inactiveHeapPointer - s.inactiveHeapBase < s.heapSize / 8)

/-- From `GenerationalMemoryManager::collectGarbage`: a young collection,
then a full collection exactly when the threshold check fires, and the
collection counter is incremented. -/
def collectGarbage (s : GenState) : GenState :=
  let s1 := collectLeftToRight s false
  let s2 := if checkThreshold s1 then collectRightToLeft s1 else s1
  { s2 with collectionsCount := s2.collectionsCount + 1 }

/-- A concrete collector state: halves of size 500 based at 0 and 500,
one live object in each half, the young allocation pointer at 300 and the
old one at 980. -/
def exGen : GenState where
  heapOne := 0
  heapTwo := 500
  heapSize := 1000
  activeHeapBase := 0
  activeHeapPointer := 300
  inactiveHeapBase := 500
  inactiveHeapPointer := 980
  liveInOne := [(1, 50)]
  liveInTwo := [(2, 100)]
  poisonOne := none
  poisonTwo := none
  crossgen := [600]
  leftToRightCollections := 0
  rightToLeftCollections := 0
  collectionsCount := 0

/-- Auxiliary: appending a low one bit to an even number is the successor. -/
theorem two_mul_or_one (n : Nat) : 2 * n ||| 1 = 2 * n + 1 := by
  apply Nat.eq_of_testBit_eq
  intro i
  have h1 : 2 * n / 2 = n := by omega
  have h2 : (2 * n + 1) / 2 = n := by omega
  cases i with
  | zero => simp [Nat.testBit_or]; omega
  | succ j =>
      rw [Nat.testBit_or]
      simp [Nat.testBit_succ, h1, h2, Nat.zero_testBit]

/-- C5: for every 32-bit value `p` whose low bit is 1,
`newInteger (getIntegerValue p) = p`. -/
theorem c5_smallint_roundtrip (p : Nat) (hlt : p < 4294967296)
    (htag : isSmallInteger p = true) :
    newInteger (getIntegerValue p) = p := by
  have hodd : p % 2 = 1 := by
    have h := htag
    simp [isSmallInteger, Nat.and_one_is_mod] at h
    exact h
  unfold newInteger getIntegerValue
  rw [Nat.mod_eq_of_lt hlt, Nat.shiftRight_one, Nat.shiftLeft_eq]
  have h3 : p / 2 * 2 ^ 1 = 2 * (p / 2) := by ring
  rw [h3, two_mul_or_one]
  have h4 : 2 * (p / 2) + 1 = p := by omega
  rw [h4, Nat.mod_eq_of_lt hlt]

/-- Witness for C5 at the tagged value 5 (the encoding of 2). -/
theorem c5_smallint_roundtrip_witness :
    (5 : Nat) < 4294967296 ∧ isSmallInteger 5 = true ∧
      newInteger (getIntegerValue 5) = 5 :=
  ⟨by decide, by decide, c5_smallint_roundtrip 5 (by decide) (by decide)⟩

/-- C7: `doPushConstant` pushes `newInteger low` for `low ≤ 9`, and the
global `nil`, `true`, `false` objects for constants 10, 11 and 12. -/
theorem c7_pushConstant (low : Nat) (stack : List TObjectRef) :
    (low ≤ 9 → doPushConstant low stack = TObjectRef.raw (newInteger low) :: stack) ∧
    doPushConstant 10 stack = TObjectRef.nilObject :: stack ∧
    doPushConstant 11 stack = TObjectRef.trueObject :: stack ∧
    doPushConstant 12 stack = TObjectRef.falseObject :: stack := by
  refine ⟨fun h => ?_, ?_, ?_, ?_⟩ <;> simp [doPushConstant, *]

/-- Witness for C7 at constant 3 on the empty stack. -/
theorem c7_pushConstant_witness :
    (3 : Nat) ≤ 9 ∧ doPushConstant 3 [] = [TObjectRef.raw (newInteger 3)] :=
  ⟨by decide, (c7_pushConstant 3 []).1 (by decide)⟩

/-- Counterexample for C8 as stated: the exit condition of a normal
return, `returnReturned`, carries the numeric code 4, not 2. -/
theorem c8_exit_codes_counterexample :
    TExecuteResult.code TExecuteResult.returnReturned = 4 ∧
    ¬ TExecuteResult.code TExecuteResult.returnReturned = 2 := by decide

/-- C8 (amended): the exit conditions carry `error = 2`, `badMethod = 3`,
`returned = 4`, `timeExpired = 5`, `break = 6`, `noReturn = 255`. -/
theorem c8_exit_codes :
    TExecuteResult.code TExecuteResult.returnError = 2 ∧
    TExecuteResult.code TExecuteResult.returnBadMethod = 3 ∧
    TExecuteResult.code TExecuteResult.returnReturned = 4 ∧
    TExecuteResult.code TExecuteResult.returnTimeExpired = 5 ∧
    TExecuteResult.code TExecuteResult.returnBreak = 6 ∧
    TExecuteResult.code TExecuteResult.returnNoReturn = 255 := by decide

/-- C10: the literal-inlining lowering of `pushLiteral` pushes exactly
the value the general array-load lowering pushes. -/
theorem c10_pushLiteral_refines (literals : List Nat) (index : Nat) :
    doPushLiteral literals index = doPushLiteralGeneral literals index := by
  unfold doPushLiteral doPushLiteralGeneral
  cases h : literals.get? index with
  | none => rfl
  | some w => simp

/-- Counterexample for C6 as stated: adding the tagged values of
`2 ^ 30` and `2 ^ 30` does not promote on overflow; the 32-bit sum wraps
and is re-tagged, producing the encoding of 0 instead of a value
representing `2 ^ 31`. -/
theorem c6_sendBinary_counterexample :
    doSendBinary 2 [TObjectRef.raw 2147483649, TObjectRef.raw 2147483649] =
      some (TBinarySendOutcome.direct (TObjectRef.raw 1), []) ∧
    TObjectRef.isSmallInt (TObjectRef.raw 2147483649) = true ∧
    getIntegerValue 2147483649 = 1073741824 ∧
    getIntegerValue 1 ≠ 1073741824 + 1073741824 := by decide

/-- C6 (amended): `doSendBinary` pops the right operand, then the left;
when both are small integers, opcode 0 pushes the boolean object of the
signed comparison `left < right`, opcode 1 that of `left <= right`, and
opcode 2 pushes the re-tagged 32-bit wrapping sum (no overflow
promotion); otherwise a two-element argument array `(left, right)` is
built and the binary selector of the opcode is sent. -/
theorem c6_sendBinary (low : Nat) (l r : TObjectRef) (rest : List TObjectRef)
    (hlow : low < 3) :
    ((r.isSmallInt && l.isSmallInt) = false →
      doSendBinary low (r :: l :: rest) =
        some (TBinarySendOutcome.send low [l, r], rest)) ∧
    ((r.isSmallInt && l.isSmallInt) = true →
      doSendBinary 0 (r :: l :: rest) =
        some (TBinarySendOutcome.direct (boolSelect (icmpSLT l.intValue r.intValue)), rest) ∧
      doSendBinary 1 (r :: l :: rest) =
        some (TBinarySendOutcome.direct (boolSelect (icmpSLE l.intValue r.intValue)), rest) ∧
      doSendBinary 2 (r :: l :: rest) =
        some (TBinarySendOutcome.direct
          (TObjectRef.raw (newInteger ((l.intValue + r.intValue) % 4294967296))), rest)) := by
  constructor
  · intro h
    simp [doSendBinary, h, hlow]
  · intro h
    refine ⟨?_, ?_, ?_⟩ <;> simp [doSendBinary, h]

/-- Witness for C6: a non-integer right operand forces the send path. -/
theorem c6_sendBinary_witness :
    (0 : Nat) < 3 ∧
    (TObjectRef.isSmallInt (TObjectRef.heapObj 7) &&
      TObjectRef.isSmallInt (TObjectRef.raw 5)) = false ∧
    doSendBinary 0 [TObjectRef.heapObj 7, TObjectRef.raw 5] =
      some (TBinarySendOutcome.send 0 [TObjectRef.raw 5, TObjectRef.heapObj 7], []) :=
  ⟨by decide, by decide,
    (c6_sendBinary 0 (TObjectRef.raw 5) (TObjectRef.heapObj 7) [] (by decide)).1 (by decide)⟩

/-- `storeSlot` leaves the crossgen list untouched. -/
theorem storeSlot_crossgen (s : WBState) (value slot : Nat) :
    (storeSlot s value slot).crossgen = s.crossgen := rfl

/-- `storeSlot` leaves the heap geometry, hence youngness, untouched. -/
theorem storeSlot_young (s : WBState) (value slot x : Nat) :
    isInYoungHeap (storeSlot s value slot) x = isInYoungHeap s x := rfl

/-- The memory after a `storeSlot`. -/
theorem storeSlot_mem (s : WBState) (value slot a : Nat) :
    (storeSlot s value slot).mem a = if a = slot then value else s.mem a := rfl

/-- `addCrossgenReference` does not move the heap. -/
theorem addCrossgen_young (s : WBState) (p x : Nat) :
    isInYoungHeap (addCrossgenReference s p) x = isInYoungHeap s x := rfl

/-- `addCrossgenReference` does not write memory. -/
theorem addCrossgen_mem (s : WBState) (p a : Nat) :
    (addCrossgenReference s p).mem a = s.mem a := rfl

/-- `addCrossgenReference` conses the slot address. -/
theorem addCrossgen_crossgen (s : WBState) (p : Nat) :
    (addCrossgenReference s p).crossgen = p :: s.crossgen := rfl

/-- `removeCrossgenReference` does not move the heap. -/
theorem removeCrossgen_young (s : WBState) (p x : Nat) :
    isInYoungHeap (removeCrossgenReference s p) x = isInYoungHeap s x := rfl

/-- `removeCrossgenReference` does not write memory. -/
theorem removeCrossgen_mem (s : WBState) (p a : Nat) :
    (removeCrossgenReference s p).mem a = s.mem a := rfl

/-- `removeCrossgenReference` erases the first occurrence. -/
theorem removeCrossgen_crossgen (s : WBState) (p : Nat) :
    (removeCrossgenReference s p).crossgen = s.crossgen.erase p := rfl

/-- The concrete barrier state satisfies the crossgen invariant over the
tracked slot 600. -/
theorem exBarrier_inv : crossgenInv [600] exBarrier := by
  intro a
  by_cases ha : a = 600 <;> simp [ha, exBarrier, isInYoungHeap]

/-- Counterexample for C1 as stated: `checkRoot` invoked immediately
after the store (as `doAssignInstance` emits it and as the claim words
it) reads the freshly stored value as `previousValue`, so storing the
young address 200 over the old prior value 700 held by the old slot 600
adds nothing to the crossgen set. -/
theorem c1_checkRoot_after_store_counterexample :
    isInYoungHeap exBarrier 200 = true ∧
    isInYoungHeap exBarrier (exBarrier.mem 600) = false ∧
    isInYoungHeap exBarrier 600 = false ∧
    isInStaticHeap exBarrier 600 = false ∧
    (storeThenCheckRoot exBarrier 200 600).2.crossgen = [] := by
  refine ⟨by decide, by decide, by decide, by decide, rfl⟩

/-- C1 (amended): for a `checkRoot(value, slot)` invocation made while
the slot still holds its prior value (i.e. immediately before the store),
with the slot in the old generation: a young value over a non-young prior
value adds the slot address to the crossgen set, a non-young value over a
young prior value removes its first occurrence, and otherwise the state
is unchanged. -/
theorem c1_checkRoot_barrier (s : WBState) (value slot : Nat)
    (hys : isInYoungHeap s slot = false)
    (hstatic : isInStaticHeap s slot = false) :
    (isInYoungHeap s value = true → isInYoungHeap s (s.mem slot) = false →
      (checkRoot s value slot).2.crossgen = slot :: s.crossgen) ∧
    (isInYoungHeap s value = false → isInYoungHeap s (s.mem slot) = true →
      (checkRoot s value slot).2.crossgen = s.crossgen.erase slot) ∧
    (isInYoungHeap s value = isInYoungHeap s (s.mem slot) →
      (checkRoot s value slot).2 = s) := by
  refine ⟨fun hv hp => ?_, fun hv hp => ?_, fun hvp => ?_⟩
  · simp [checkRoot, hys, hstatic, hv, hp, addCrossgenReference]
  · simp [checkRoot, hys, hstatic, hv, hp, removeCrossgenReference]
  · cases hv : isInYoungHeap s value with
    | true =>
        have hp : isInYoungHeap s (s.mem slot) = true := by rw [← hvp, hv]
        simp [checkRoot, hys, hstatic, hv, hp]
    | false =>
        have hp : isInYoungHeap s (s.mem slot) = false := by rw [← hvp, hv]
        simp [checkRoot, hys, hstatic, hv, hp]

/-- Witness for C1 at the concrete barrier state: slot 600 is old and
holds the old value 700; storing the young value 200 adds 600. -/
theorem c1_checkRoot_barrier_witness :
    isInYoungHeap exBarrier 600 = false ∧
    isInStaticHeap exBarrier 600 = false ∧
    ((isInYoungHeap exBarrier 200 = true →
        isInYoungHeap exBarrier (exBarrier.mem 600) = false →
        (checkRoot exBarrier 200 600).2.crossgen = 600 :: exBarrier.crossgen) ∧
     (isInYoungHeap exBarrier 200 = false →
        isInYoungHeap exBarrier (exBarrier.mem 600) = true →
        (checkRoot exBarrier 200 600).2.crossgen = exBarrier.crossgen.erase 600) ∧
     (isInYoungHeap exBarrier 200 = isInYoungHeap exBarrier (exBarrier.mem 600) →
        (checkRoot exBarrier 200 600).2 = exBarrier)) :=
  ⟨by decide, by decide, c1_checkRoot_barrier exBarrier 200 600 (by decide) (by decide)⟩

/-- Counterexample for C9 as stated: with an empty crossgen list, storing
the old value 700 into the old slot 600 whose current content is young
makes `checkRoot` return `true`, although the removal found nothing to
erase, the crossgen list is unchanged and the static-root handling was
never consulted. -/
theorem c9_checkRoot_counterexample :
    (checkRoot exBarrierYoungSlot 700 600).1 = true ∧
    (checkRoot exBarrierYoungSlot 700 600).2.crossgen = exBarrierYoungSlot.crossgen ∧
    exBarrierYoungSlot.crossgen = [] ∧
    isInStaticHeap exBarrierYoungSlot 600 = false := by
  refine ⟨rfl, rfl, rfl, rfl⟩

/-- C9 (amended): `checkRoot` returns `false` for a young slot and leaves
the state alone; for a static slot it returns the base collector's result
without touching the crossgen list; for an old slot it returns `true`
exactly when the youngness of the incoming value and of the current slot
content differ, in which case it either conses the slot address or erases
its first occurrence (possibly a no-op); whenever it returns `false` the
state is unchanged. -/
theorem c9_checkRoot_result (s : WBState) (value slot : Nat) :
    (isInYoungHeap s slot = true → checkRoot s value slot = (false, s)) ∧
    (isInYoungHeap s slot = false → isInStaticHeap s slot = true →
      checkRoot s value slot = (s.baseCheckRoot value slot, s)) ∧
    (isInYoungHeap s slot = false → isInStaticHeap s slot = false →
      (((checkRoot s value slot).1 = true ↔
          (isInYoungHeap s value = true ∧ isInYoungHeap s (s.mem slot) = false) ∨
          (isInYoungHeap s value = false ∧ isInYoungHeap s (s.mem slot) = true)) ∧
       ((checkRoot s value slot).1 = true →
          (checkRoot s value slot).2.crossgen = slot :: s.crossgen ∨
          (checkRoot s value slot).2.crossgen = s.crossgen.erase slot) ∧
       ((checkRoot s value slot).1 = false → checkRoot s value slot = (false, s)))) := by
  refine ⟨fun h => ?_, fun h1 h2 => ?_, fun h1 h2 => ?_⟩
  · simp [checkRoot, h]
  · simp [checkRoot, h1, h2]
  · cases hv : isInYoungHeap s value <;> cases hp : isInYoungHeap s (s.mem slot) <;>
      simp [checkRoot, h1, h2, hv, hp, addCrossgenReference, removeCrossgenReference]

/-- Witness for C9 at the old slot 600 currently holding a young value. -/
theorem c9_checkRoot_result_witness :
    isInYoungHeap exBarrierYoungSlot 600 = false ∧
    isInStaticHeap exBarrierYoungSlot 600 = false ∧
    (((checkRoot exBarrierYoungSlot 700 600).1 = true ↔
        (isInYoungHeap exBarrierYoungSlot 700 = true ∧
          isInYoungHeap exBarrierYoungSlot (exBarrierYoungSlot.mem 600) = false) ∨
        (isInYoungHeap exBarrierYoungSlot 700 = false ∧
          isInYoungHeap exBarrierYoungSlot (exBarrierYoungSlot.mem 600) = true)) ∧
     ((checkRoot exBarrierYoungSlot 700 600).1 = true →
        (checkRoot exBarrierYoungSlot 700 600).2.crossgen =
          600 :: exBarrierYoungSlot.crossgen ∨
        (checkRoot exBarrierYoungSlot 700 600).2.crossgen =
          exBarrierYoungSlot.crossgen.erase 600) ∧
     ((checkRoot exBarrierYoungSlot 700 600).1 = false →
        checkRoot exBarrierYoungSlot 700 600 = (false, exBarrierYoungSlot))) :=
  ⟨by decide, by decide,
    (c9_checkRoot_result exBarrierYoungSlot 700 600).2.2 (by decide) (by decide)⟩

/-- Counterexample for C2 as stated: starting from a state satisfying the
crossgen invariant, one `assignInstance`-style step (store first, then
`checkRoot`, the order the sources emit) writes the young address 200
into the old slot 600 and leaves the crossgen set without that slot. -/
theorem c2_crossgenInv_counterexample :
    crossgenInv [600] exBarrier ∧
    ¬ crossgenInv [600] (storeThenCheckRoot exBarrier 200 600).2 := by
  constructor
  · exact exBarrier_inv
  · intro h
    have h0 := h 600
    have e1 : (storeThenCheckRoot exBarrier 200 600).2.crossgen = [] := rfl
    have e2 : isInYoungHeap (storeThenCheckRoot exBarrier 200 600).2 600 = false := rfl
    have e3 : isInYoungHeap (storeThenCheckRoot exBarrier 200 600).2
        ((storeThenCheckRoot exBarrier 200 600).2.mem 600) = true := rfl
    rw [e1, e2, e3] at h0
    simp at h0

/-- C2 (amended): provided the write barrier runs immediately before each
reference-slot store (so `checkRoot` observes the prior value), every
barriered store preserves the invariant that the crossgen set holds each
tracked old-generation slot with young content exactly once and nothing
else.  The store-then-check order the sources emit violates it. -/
theorem c2_crossgenInv_preserved (dom : List Nat) (s : WBState) (value slot : Nat)
    (hdom : slot ∈ dom)
    (hstatic : ∀ a ∈ dom, s.staticHeap a = false)
    (hinv : crossgenInv dom s) :
    crossgenInv dom (checkRootThenStore s value slot) := by
  intro a
  have hstat : s.staticHeap slot = false := hstatic slot hdom
  cases hys : isInYoungHeap s slot with
  | true =>
      have ht : checkRootThenStore s value slot = storeSlot s value slot := by
        unfold checkRootThenStore
        simp [checkRoot, hys]
      rw [ht]
      rw [storeSlot_crossgen, storeSlot_young, storeSlot_young, storeSlot_mem]
      by_cases ha : a = slot
      · subst ha
        rw [if_pos rfl]
        have h0 := hinv a
        rw [hys] at h0 ⊢
        simp at h0
        simp [h0]
      · rw [if_neg ha]
        exact hinv a
  | false =>
      cases hv : isInYoungHeap s value with
      | true =>
          cases hp : isInYoungHeap s (s.mem slot) with
          | false =>
              have ht : checkRootThenStore s value slot =
                  storeSlot (addCrossgenReference s slot) value slot := by
                unfold checkRootThenStore
                simp [checkRoot, hys, isInStaticHeap, hstat, hv, hp]
              rw [ht]
              rw [storeSlot_crossgen, addCrossgen_crossgen, storeSlot_young,
                storeSlot_young, addCrossgen_young, addCrossgen_young, storeSlot_mem]
              by_cases ha : a = slot
              · subst ha
                rw [if_pos rfl]
                have h0 := hinv a
                rw [hys, hp] at h0
                simp at h0
                rw [hys, hv]
                simp [hdom, List.count_cons_self, h0]
              · rw [if_neg ha, List.count_cons_of_ne ha, addCrossgen_mem]
                exact hinv a
          | true =>
              have ht : checkRootThenStore s value slot = storeSlot s value slot := by
                unfold checkRootThenStore
                simp [checkRoot, hys, isInStaticHeap, hstat, hv, hp]
              rw [ht]
              rw [storeSlot_crossgen, storeSlot_young, storeSlot_young, storeSlot_mem]
              by_cases ha : a = slot
              · subst ha
                rw [if_pos rfl]
                have h0 := hinv a
                rw [hys, hp] at h0
                simp [hdom] at h0
                rw [hys, hv]
                simp [hdom, h0]
              · rw [if_neg ha]
                exact hinv a
      | false =>
          cases hp : isInYoungHeap s (s.mem slot) with
          | true =>
              have ht : checkRootThenStore s value slot =
                  storeSlot (removeCrossgenReference s slot) value slot := by
                unfold checkRootThenStore
                simp [checkRoot, hys, isInStaticHeap, hstat, hv, hp]
              rw [ht]
              rw [storeSlot_crossgen, removeCrossgen_crossgen, storeSlot_young,
                storeSlot_young, removeCrossgen_young, removeCrossgen_young, storeSlot_mem]
              by_cases ha : a = slot
              · subst ha
                rw [if_pos rfl]
                have h0 := hinv a
                rw [hys, hp] at h0
                simp [hdom] at h0
                rw [hys, hv]
                simp [List.count_erase_self, h0]
              · rw [if_neg ha, List.count_erase_of_ne ha, removeCrossgen_mem]
                exact hinv a
          | false =>
              have ht : checkRootThenStore s value slot = storeSlot s value slot := by
                unfold checkRootThenStore
                simp [checkRoot, hys, isInStaticHeap, hstat, hv, hp]
              rw [ht]
              rw [storeSlot_crossgen, storeSlot_young, storeSlot_young, storeSlot_mem]
              by_cases ha : a = slot
              · subst ha
                rw [if_pos rfl]
                have h0 := hinv a
                rw [hys, hp] at h0
                simp at h0
                rw [hys, hv]
                simp [h0]
              · rw [if_neg ha]
                exact hinv a

/-- Witness for C2: the barriered store of the young value 200 into the
tracked old slot 600 of the concrete state keeps the invariant. -/
theorem c2_crossgenInv_preserved_witness :
    (600 : Nat) ∈ [600] ∧
    (∀ a ∈ ([600] : List Nat), exBarrier.staticHeap a = false) ∧
    crossgenInv [600] exBarrier ∧
    crossgenInv [600] (checkRootThenStore exBarrier 200 600) :=
  ⟨by decide, fun a _ => rfl, exBarrier_inv,
    c2_crossgenInv_preserved [600] exBarrier 200 600 (by decide) (fun a _ => rfl)
      exBarrier_inv⟩

/-- C4: a young collection (`collectLeftToRight` without full collect)
clears the crossgen set, leaves the first half without live objects,
resets its allocation pointer to cover the whole half, poisons it with
the byte `0xAA` and makes it the active allocation area again. -/
theorem c4_young_collection (s : GenState) :
    (collectLeftToRight s false).crossgen = [] ∧
    (collectLeftToRight s false).liveInOne = [] ∧
    (collectLeftToRight s false).activeHeapBase = s.heapOne ∧
    (collectLeftToRight s false).activeHeapPointer = s.heapOne + s.heapSize / 2 ∧
    (collectLeftToRight s false).poisonOne = some 170 :=
  ⟨rfl, rfl, rfl, rfl, rfl⟩

/-- C3: `collectGarbage` runs the young collection first; the full
right-to-left pass runs exactly when the free space of the old half
(measured from its base `heapTwo`) after the young collection is strictly
below `heapSize / 8`; the full pass stages every live object in the first
half and then returns all of them to the second half, leaving the first
half empty, poisoned and active for fresh allocation. -/
theorem c3_collectGarbage (s : GenState) (hne : s.heapOne ≠ s.heapTwo) :
    (collectLeftToRight s false).inactiveHeapBase = s.heapTwo ∧
    ((collectLeftToRight s false).inactiveHeapPointer - s.heapTwo < s.heapSize / 8 →
      collectGarbage s =
        { collectRightToLeft (collectLeftToRight s false) with
            collectionsCount :=
              (collectRightToLeft (collectLeftToRight s false)).collectionsCount + 1 }) ∧
    (¬ (collectLeftToRight s false).inactiveHeapPointer - s.heapTwo < s.heapSize / 8 →
      collectGarbage s =
        { collectLeftToRight s false with
            collectionsCount := (collectLeftToRight s false).collectionsCount + 1 }) ∧
    (moveObjects
        { collectLeftToRight s false with
            activeHeapBase := s.heapOne
            inactiveHeapBase := s.heapTwo
            activeHeapPointer := s.heapOne + s.heapSize / 2 }).liveInOne =
      (collectLeftToRight s false).liveInOne ++ (collectLeftToRight s false).liveInTwo ∧
    (moveObjects
        { collectLeftToRight s false with
            activeHeapBase := s.heapOne
            inactiveHeapBase := s.heapTwo
            activeHeapPointer := s.heapOne + s.heapSize / 2 }).liveInTwo = [] ∧
    (collectRightToLeft (collectLeftToRight s false)).liveInTwo =
      (collectLeftToRight s false).liveInOne ++ (collectLeftToRight s false).liveInTwo ∧
    (collectRightToLeft (collectLeftToRight s false)).liveInOne = [] ∧
    (collectRightToLeft (collectLeftToRight s false)).activeHeapBase = s.heapOne ∧
    (collectRightToLeft (collectLeftToRight s false)).activeHeapPointer =
      s.heapOne + s.heapSize / 2 ∧
    (collectRightToLeft (collectLeftToRight s false)).poisonOne = some 170 := by
  refine ⟨rfl, fun h => ?_, fun h => ?_, ?_, ?_, ?_, ?_, ?_, ?_, ?_⟩
  · have hth : checkThreshold (collectLeftToRight s false) = true := by
      unfold checkThreshold
      rw [decide_eq_true_eq]
      exact h
    simp [collectGarbage, hth]
  · have hth : checkThreshold (collectLeftToRight s false) = false := by
      unfold checkThreshold
      rw [decide_eq_false_iff_not]
      exact h
    simp [collectGarbage, hth]
  · simp [moveObjects, collectLeftToRight, moveYoungObjects, hne]
  · simp [moveObjects, collectLeftToRight, moveYoungObjects, hne]
  · simp [collectRightToLeft, collectLeftToRight, moveObjects, moveYoungObjects, hne]
  · simp [collectRightToLeft, collectLeftToRight, moveObjects, moveYoungObjects, hne]
  · simp [collectRightToLeft, collectLeftToRight, moveObjects, moveYoungObjects, hne]
  · simp [collectRightToLeft, collectLeftToRight, moveObjects, moveYoungObjects, hne]
  · simp [collectRightToLeft, collectLeftToRight, moveObjects, moveYoungObjects, hne]

/-- Witness for C3 at the concrete collector state. -/
theorem c3_collectGarbage_witness :
    exGen.heapOne ≠ exGen.heapTwo ∧
    ((collectLeftToRight exGen false).inactiveHeapBase = exGen.heapTwo ∧
    ((collectLeftToRight exGen false).inactiveHeapPointer - exGen.heapTwo <
        exGen.heapSize / 8 →
      collectGarbage exGen =
        { collectRightToLeft (collectLeftToRight exGen false) with
            collectionsCount :=
              (collectRightToLeft (collectLeftToRight exGen false)).collectionsCount + 1 }) ∧
    (¬ (collectLeftToRight exGen false).inactiveHeapPointer - exGen.heapTwo <
        exGen.heapSize / 8 →
      collectGarbage exGen =
        { collectLeftToRight exGen false with
            collectionsCount := (collectLeftToRight exGen false).collectionsCount + 1 }) ∧
    (moveObjects
        { collectLeftToRight exGen false with
            activeHeapBase := exGen.heapOne
            inactiveHeapBase := exGen.heapTwo
            activeHeapPointer := exGen.heapOne + exGen.heapSize / 2 }).liveInOne =
      (collectLeftToRight exGen false).liveInOne ++
        (collectLeftToRight exGen false).liveInTwo ∧
    (moveObjects
        { collectLeftToRight exGen false with
            activeHeapBase := exGen.heapOne
            inactiveHeapBase := exGen.heapTwo
            activeHeapPointer := exGen.heapOne + exGen.heapSize / 2 }).liveInTwo = [] ∧
    (collectRightToLeft (collectLeftToRight exGen false)).liveInTwo =
      (collectLeftToRight exGen false).liveInOne ++
        (collectLeftToRight exGen false).liveInTwo ∧
    (collectRightToLeft (collectLeftToRight exGen false)).liveInOne = [] ∧
    (collectRightToLeft (collectLeftToRight exGen false)).activeHeapBase = exGen.heapOne ∧
    (collectRightToLeft (collectLeftToRight exGen false)).activeHeapPointer =
      exGen.heapOne + exGen.heapSize / 2 ∧
    (collectRightToLeft (collectLeftToRight exGen false)).poisonOne = some 170) :=
  ⟨by decide, c3_collectGarbage exGen (by decide)⟩
